import Mathlib

/-!
Verification of the natural-language specification of the EVE Online
payment-splitting site against its client script (src/static/script.js).
Each JavaScript function relevant to the claims is embedded as a pure
Lean function; DOM reads become explicit parameters, DOM writes and the
persisted application state become explicit return values.  Strings are
manipulated through their character lists with structural recursion so
that every definition evaluates inside the kernel.
-/

namespace EveSplit

-- ## JavaScript string and number primitives

/-- Characters removed by the JS String.prototype.trim call. -/
def jsTrimChars (cs : List Char) : List Char :=
  ((cs.dropWhile Char.isWhitespace).reverse.dropWhile Char.isWhitespace).reverse

/-- Model of s.trim() for a JS string. -/
def jsTrim (s : String) : String := String.mk (jsTrimChars s.data)

/-- Numeric value of a digit character, covering the hexadecimal range
used by parseInt when the input carries a 0x prefix. -/
def digitCharVal (c : Char) : Nat :=
  if c.isDigit then c.toNat - 48
  else if 'a' ≤ c && c ≤ 'f' then c.toNat - 87
  else c.toNat - 55

/-- Is c a digit of the given radix (10 or 16)? -/
def isRadixDigit (radix : Nat) (c : Char) : Bool :=
  if radix = 16 then c.isDigit || (('a' ≤ c && c ≤ 'f') || ('A' ≤ c && c ≤ 'F'))
  else c.isDigit

/-- Value of a digit string under the given radix, most significant digit
first. -/
def digitsToNat (radix : Nat) (ds : List Char) : Nat :=
  ds.foldl (fun a c => radix * a + digitCharVal c) 0

/-- Magnitude part of JS parseInt: optional 0x prefix selects radix 16,
then the longest digit prefix is read; no digit at all means NaN,
modelled as none. -/
def jsParseIntNat (cs : List Char) : Option Nat :=
  let p := match cs with
    | '0' :: 'x' :: rest => ((16 : Nat), rest)
    | '0' :: 'X' :: rest => ((16 : Nat), rest)
    | _ => ((10 : Nat), cs)
  let ds := p.2.takeWhile (isRadixDigit p.1)
  if ds.isEmpty then none else some (digitsToNat p.1 ds)

/-- Model of the JS global parseInt(s) with no radix argument: leading
whitespace is skipped, an optional sign is read, and the result is NaN
(none) when no digit follows. -/
def jsParseInt (s : String) : Option Int :=
  match s.data.dropWhile Char.isWhitespace with
  | '-' :: rest => (jsParseIntNat rest).map (fun n => -(n : Int))
  | '+' :: rest => (jsParseIntNat rest).map (fun n => (n : Int))
  | cs => (jsParseIntNat cs).map (fun n => (n : Int))

/-- JS comparison x < k where x may be NaN (none); a comparison against
NaN is false. -/
def jsLtNum (x : Option Int) (k : Int) : Bool :=
  match x with
  | none => false
  | some v => decide (v < k)

/-- JS comparison x > k where x may be NaN (none); a comparison against
NaN is false. -/
def jsGtNum (x : Option Int) (k : Int) : Bool :=
  match x with
  | none => false
  | some v => decide (v > k)

/-- parseFormattedNumber (script.js lines 52-55): a falsy (empty) string
yields 0; otherwise every non-digit character is stripped and the
remaining digits are parsed, the trailing JS expression ... || 0 turning
a digitless string (NaN) into 0. -/
def parseFormattedNumber (s : String) : Int :=
  if s = "" then 0
  else
    let ds := s.data.filter Char.isDigit
    if ds.isEmpty then 0 else ((digitsToNat 10 ds : Nat) : Int)

/-- Decimal digit characters of n, most significant first, by repeated
division; the first argument is fuel, always called with fuel = n so the
recursion is structural. -/
def toDigitsAux : Nat → Nat → List Char
  | 0, _ => []
  | fuel + 1, n => if n = 0 then [] else toDigitsAux fuel (n / 10) ++ [Nat.digitChar (n % 10)]

/-- Decimal representation of a natural number as toLocaleString renders
it before grouping; 0 renders as the single digit 0. -/
def natDigits (n : Nat) : List Char :=
  if n = 0 then ['0'] else toDigitsAux n n

/-- Thousands separator of the locale selected by formatNumber: de-DE
(format space) and it-IT (format dot) group with a period, the en-US
fallback groups with a comma. -/
def sepFor (fmt : String) : Char :=
  if fmt = "space" then '.' else if fmt = "dot" then '.' else ','

/-- Insert the thousands separator after every third character counted
from the right; the input list is least significant digit first. -/
def groupThousands (sep : Char) : List Char → List Char
  | a :: b :: c :: d :: rest => a :: b :: c :: sep :: groupThousands sep (d :: rest)
  | l => l

/-- Locale-grouped rendering of an integer, the digit work of
toLocaleString inside formatNumber. -/
def formatInt (n : Int) (fmt : String) : String :=
  String.mk ((if n < 0 then ['-'] else []) ++
    (groupThousands (sepFor fmt) (natDigits n.natAbs).reverse).reverse)

/-- Math.round: round half toward positive infinity. -/
def jsRound (q : ℚ) : Int := ⌊q + 1 / 2⌋

/-- formatNumber (script.js lines 42-49): Math.round the input, then
render with the locale matching the requested format. -/
def formatNumber (q : ℚ) (fmt : String) : String := formatInt (jsRound q) fmt

-- ## Data model (script.js appData)

/-- Roster entry: created by addMember, removed by removeMember. -/
structure Member where
  id : String
  name : String
  isSalvager : Bool
  deriving DecidableEq

/-- Registered site; level is the parseInt result of the level field and
is none when that parse produced NaN. -/
structure Site where
  id : Int
  name : String
  level : Option Int
  participants : List String
  deriving DecidableEq

/-- appData.config; levelValues and levelNames are the two keyed objects,
modelled with a single canonical integer key. -/
structure Config where
  levelValues : Int → Option Int
  levelNames : Int → Option String
  hasSalvager : Bool
  salvagerPercent : ℚ
  currency : String
  autoCalculate : Bool
  numberFormat : String

/-- The whole appData document. -/
structure AppData where
  config : Config
  members : List Member
  sites : List Site

/-- One entry of calculations.payments as consumed by the display. -/
structure Payment where
  memberId : String
  name : String
  isSalvager : Bool
  sitesCount : Nat
  total : ℚ
  deriving DecidableEq

/-- The calculations value the server attaches to the document. -/
structure Calculations where
  totalPaid : ℚ
  totalSites : Int
  payments : List Payment
  deriving DecidableEq

-- ## Members (addMember, removeMember)

/-- Token split of the member-name textarea on the delimiters of the
regex in addMember (newline or comma); splitting on single delimiter
characters leaves empty tokens between consecutive delimiters, which the
trim plus filter(Boolean) pipeline removes exactly as the regex-run
split does. -/
def splitAtDelims : List Char → List Char → List (List Char)
  | [], acc => [acc.reverse]
  | c :: rest, acc =>
    if c = '\n' || c = ',' then acc.reverse :: splitAtDelims rest []
    else splitAtDelims rest (c :: acc)

/-- addMember name pipeline: raw.split on newline and comma, map trim,
filter(Boolean). -/
def parseNames (raw : String) : List String :=
  ((splitAtDelims raw.data []).map (fun cs => String.mk (jsTrimChars cs))).filter
    (fun s => s != "")

/-- The member records pushed by addMember, one per parsed name in input
order, all carrying the selected salvager flag; idGen stands for the
generateUUID calls. -/
def buildMembers (flag : Bool) (idGen : Nat → String) : List String → Nat → List Member
  | [], _ => []
  | n :: rest, i => { name := n, isSalvager := flag, id := idGen i } :: buildMembers flag idGen rest (i + 1)

/-- addMember (script.js lines 454-490): an input with no non-empty name
is rejected, otherwise one member per name is appended to
appData.members. -/
def addMember (d : AppData) (raw : String) (isSalvager : Bool) (idGen : Nat → String) : AppData :=
  let names := parseNames raw
  if names.isEmpty then d
  else { d with members := d.members ++ buildMembers isSalvager idGen names 0 }

/-- removeMember (script.js lines 493-509): when the confirm dialog is
accepted, appData.members is replaced by its filter on id; a declined
dialog leaves appData untouched. -/
def removeMember (d : AppData) (mid : String) (confirmed : Bool) : AppData :=
  if confirmed then { d with members := d.members.filter (fun m => m.id != mid) } else d

-- ## Sites (addSite)

/-- addSite (script.js lines 571-618): the name is trimmed and must be
non-empty, the parsed level is rejected when level < 1 or level > 10
(both comparisons are false on NaN, so a NaN level passes), at least one
participant checkbox must be checked, and the new site is pushed onto
appData.sites. -/
def addSite (d : AppData) (siteName levelRaw : String) (checkedIds : List String) (now : Int) : AppData :=
  let name := jsTrim siteName
  if name = "" then d
  else
    let level := jsParseInt levelRaw
    if jsLtNum level 1 || jsGtNum level 10 then d
    else if checkedIds.isEmpty then d
    else { d with sites := d.sites ++ [{ id := now, name := name, level := level, participants := checkedIds }] }

/-- The spec invariant for a stored site: an integer level in [1,10]. -/
def levelOk (s : Site) : Bool :=
  match s.level with
  | some l => decide (1 ≤ l) && decide (l ≤ 10)
  | none => false

/-- The full Site invariant from the spec: level in [1,10] and a
non-empty participant list. -/
def siteInvariant (s : Site) : Bool := levelOk s && !s.participants.isEmpty

-- ## Configuration (saveConfig)

/-- Upper bound accepted by the saveConfig validation. -/
def levelMaxValue : Int := 999999999999

/-- Default site name used when a level-name input is blank. -/
def defaultSiteName (i : Nat) : String := "Sitio " ++ String.mk (natDigits i)

/-- The level name saveConfig stores for level i given the raw input. -/
def levelNameInput (nm : String) (i : Nat) : String :=
  let t := jsTrim nm
  if t = "" then defaultSiteName i else t

/-- One iteration of the saveConfig loop body: store value and name for
level i (the source writes the same value under the numeric and string
key of the JS object; the model uses the single canonical integer key). -/
def writeLevel (cfg : Config) (i : Nat) (v : Int) (name : String) : Config :=
  { cfg with
    levelValues := fun j => if j = (i : Int) then some v else cfg.levelValues j,
    levelNames := fun j => if j = (i : Int) then some name else cfg.levelNames j }

/-- The saveConfig for-loop over levels 1..10 (script.js lines 392-407):
each level value is parsed and validated; the first out-of-range value
aborts the whole function (second component some i), leaving the levels
already written in place. -/
def saveLoop (raw nm : Nat → String) : Nat → Nat → Config → Config × Option Nat
  | 0, _, cfg => (cfg, none)
  | fuel + 1, i, cfg =>
    let v := parseFormattedNumber (raw i)
    if v < 0 || v > levelMaxValue then (cfg, some i)
    else saveLoop raw nm fuel (i + 1) (writeLevel cfg i v (levelNameInput (nm i) i))

/-- saveConfig (script.js lines 386-418).  raw i and nm i are the value
and name inputs for level i; the remaining arguments are the other form
controls.  Result: the new appData, whether the error message was shown,
and whether saveData was invoked. -/
def saveConfig (d : AppData) (raw nm : Nat → String) (hasS : Bool) (pct : ℚ)
    (curr : String) (auto : Bool) : AppData × Bool × Bool :=
  match saveLoop raw nm 10 1 d.config with
  | (cfg, some _) => ({ d with config := cfg }, true, false)
  | (cfg, none) =>
    ({ d with config :=
        { cfg with hasSalvager := hasS, salvagerPercent := pct,
                   currency := curr, autoCalculate := auto } }, false, true)

-- ## Import (handleFileImport)

/-- The parsed JSON document as far as handleFileImport inspects it: each
top-level key may be absent. -/
structure ImportDoc where
  config : Option Config
  members : Option (List Member)
  sites : Option (List Site)

/-- handleFileImport onload handler (script.js lines 798-831): parse
failure (none) throws; a document missing any of config, members, sites
throws before any assignment; otherwise, after the confirm dialog, all
three keys replace the corresponding appData fields.  Result: the new
appData and whether the error alert fired. -/
def handleFileImport (d : AppData) (parsed : Option ImportDoc) (confirmed : Bool) : AppData × Bool :=
  match parsed with
  | none => (d, true)
  | some doc =>
    match doc.config, doc.members, doc.sites with
    | some cfg, some ms, some ss =>
      if confirmed then ({ config := cfg, members := ms, sites := ss }, false) else (d, false)
    | _, _, _ => (d, true)

-- ## Sites table rendering (updateSitesList)

/-- Name shown for one participant id in the sites table: the first
roster member with that id, or the unknown-participant label. -/
def participantLabel (members : List Member) (pid : String) : String :=
  match members.find? (fun m => m.id == pid) with
  | some m => m.name
  | none => "Desconocido"

/-- The participant names column of one site row, before joining. -/
def participantNamesList (members : List Member) (s : Site) : List String :=
  s.participants.map (participantLabel members)

/-- JS Array.prototype.join with the comma-space separator. -/
def joinCommaSep : List String → String
  | [] => ""
  | [x] => x
  | x :: rest => x ++ ", " ++ joinCommaSep rest

/-- The joined participants cell of one site row. -/
def participantNamesCell (members : List Member) (s : Site) : String :=
  joinCommaSep (participantNamesList members s)

/-- The raw lookup appData.config.levelValues[s.level]; a NaN level key
never matches a stored entry. -/
def siteLevelEntry (cfg : Config) (s : Site) : Option Int :=
  match s.level with
  | some l => cfg.levelValues l
  | none => none

/-- levelValue resolution in updateSitesList: the JS expression
levelValues[s.level] || 0, so an absent entry yields 0. -/
def siteLevelValue (cfg : Config) (s : Site) : Int :=
  (siteLevelEntry cfg s).getD 0

/-- The JS expression config.currency || ISK. -/
def jsCurrency (cfg : Config) : String :=
  if cfg.currency = "" then "ISK" else cfg.currency

/-- The value cell of one site row in updateSitesList:
formatNumber(levelValue) followed by the currency label. -/
def siteValueCell (cfg : Config) (s : Site) : String :=
  formatNumber ((siteLevelValue cfg s : Int) : ℚ) cfg.numberFormat ++ " " ++ jsCurrency cfg

-- ## Payments display (updatePaymentsDisplay)

/-- The sort comparator (a, b) => b.total - a.total keeps a before b
exactly when the difference is non-positive. -/
def paymentsDesc (a b : Payment) : Bool := decide (b.total ≤ a.total)

/-- Order in which updatePaymentsDisplay renders the payment entries: an
empty list short-circuits to the empty state, otherwise the spread copy
of calculations.payments is sorted by total descending.  JS sort is
stable, modelled by mergeSort. -/
def renderedPayments (c : Calculations) : List Payment :=
  if c.payments.isEmpty then [] else c.payments.mergeSort paymentsDesc

/-- State of calculations.payments after updatePaymentsDisplay ran: the
sort operates on the spread copy, so the array itself is untouched. -/
def paymentsAfterDisplay (c : Calculations) : List Payment := c.payments

/-- The average-per-site value: the guarded ternary expression
totalSites > 0 ? totalPaid / totalSites : 0. -/
def avgPerSite (c : Calculations) : ℚ :=
  if 0 < c.totalSites then c.totalPaid / ((c.totalSites : Int) : ℚ) else 0

/-- The rendered average-per-site stat: formatNumber of the average plus
the currency label. -/
def avgPerSiteText (c : Calculations) (cfg : Config) : String :=
  formatNumber (avgPerSite c) cfg.numberFormat ++ " " ++ jsCurrency cfg

-- ## Concrete data for counterexamples and witnesses

/-- The initial appData.config of the script. -/
def config0 : Config :=
  { levelValues := fun _ => none, levelNames := fun _ => none,
    hasSalvager := false, salvagerPercent := 10, currency := "ISK",
    autoCalculate := true, numberFormat := "comma" }

/-- The initial appData of the script. -/
def appData0 : AppData := { config := config0, members := [], sites := [] }

/-- Level value inputs whose second level exceeds the validation bound
while the first is valid. -/
def rawBad : Nat → String :=
  fun i => if i = 1 then "5" else if i = 2 then "9999999999999" else "0"

/-- Constant level-name inputs. -/
def nmX : Nat → String := fun _ => "x"

/-- A one-member roster. -/
def membersEx : List Member := [{ id := "a1", name := "Alice", isSalvager := false }]

/-- A site whose second participant id matches nobody in membersEx. -/
def siteEx : Site := { id := 7, name := "Nest", level := some 2, participants := ["a1", "zzz"] }

/-- A site at a level for which config0 stores no value. -/
def siteEx2 : Site := { id := 1, name := "Foo", level := some 3, participants := ["a1"] }

/-- An import document missing its sites key. -/
def importDocNoSites : ImportDoc := { config := some config0, members := some [], sites := none }

/-- A calculations value with zero sites. -/
def calcZero : Calculations := { totalPaid := 0, totalSites := 0, payments := [] }

/-- A roster and one site referencing member b2, for the removeMember
frame claim. -/
def dataEx : AppData :=
  { config := config0,
    members := [{ id := "a1", name := "Alice", isSalvager := false },
                { id := "b2", name := "Bob", isSalvager := true }],
    sites := [{ id := 5, name := "S", level := some 1, participants := ["b2"] }] }

/-- A payment entry with a small total. -/
def paymentA : Payment :=
  { memberId := "a1", name := "Alice", isSalvager := false, sitesCount := 2, total := 5 }

/-- A payment entry with a larger total. -/
def paymentB : Payment :=
  { memberId := "b2", name := "Bob", isSalvager := true, sitesCount := 1, total := 9 }

/-- A calculations value whose payments arrive in ascending order. -/
def calcTwo : Calculations :=
  { totalPaid := 14, totalSites := 3, payments := [paymentA, paymentB] }

/-- A constant id generator standing in for generateUUID. -/
def idEx : Nat → String := fun _ => "uid"

-- ## Helper lemmas about the number formatting primitives

theorem jsRound_intCast (z : Int) : jsRound ((z : ℚ)) = z := by
  unfold jsRound
  have h2 : ⌊(1 / 2 : ℚ)⌋ = 0 := by
    rw [Int.floor_eq_iff]
    norm_num
  rw [Int.floor_int_add, h2, add_zero]

theorem formatNumber_zero (fmt : String) : formatNumber 0 fmt = "0" := by
  unfold formatNumber
  have h0 : jsRound 0 = 0 := by simpa using jsRound_intCast 0
  rw [h0]
  rfl

-- ## C9: the average-per-site guard

/-- C9: updatePaymentsDisplay never divides by zero computing the
average per site: whenever calculations.totalSites is non-positive
(zero sites included), the average used and displayed is exactly 0. -/
theorem c9_avgPerSite_guard (c : Calculations) (h : c.totalSites ≤ 0) :
    avgPerSite c = 0 ∧ ∀ cfg : Config, avgPerSiteText c cfg = "0 " ++ jsCurrency cfg := by
  have hv : avgPerSite c = 0 := by
    unfold avgPerSite
    rw [if_neg (not_lt.mpr h)]
  refine ⟨hv, fun cfg => ?_⟩
  unfold avgPerSiteText
  rw [hv, formatNumber_zero]
  rfl

/-- Witness for C9 at a calculations value with zero sites. -/
theorem c9_avgPerSite_guard_witness :
    avgPerSite calcZero = 0 ∧ avgPerSiteText calcZero config0 = "0 ISK" := by
  have h := c9_avgPerSite_guard calcZero (by decide)
  exact ⟨h.1, by rw [h.2 config0]; rfl⟩

-- ## C10: removeMember removes exactly the matching ids and nothing else

/-- C10: a confirmed removeMember keeps exactly the members whose id
differs from the given one and leaves sites and config untouched, so a
removed id may survive inside site participant lists as a dangling
reference. -/
theorem c10_removeMember_frame (d : AppData) (mid : String) :
    (∀ m : Member, m ∈ (removeMember d mid true).members ↔ (m ∈ d.members ∧ m.id ≠ mid)) ∧
    (removeMember d mid true).sites = d.sites ∧
    (removeMember d mid true).config = d.config := by
  refine ⟨fun m => ?_, rfl, rfl⟩
  unfold removeMember
  simp [List.mem_filter]

-- ## C2: import requires all three top-level keys, atomically

/-- C2: handleFileImport accepts a document (overwrites appData) only
when config, members and sites are all present; when any is missing the
error alert fires and appData is returned completely unchanged. -/
theorem c2_handleFileImport_keys (d : AppData) (parsed : Option ImportDoc) (confirmed : Bool) :
    (∀ doc : ImportDoc, parsed = some doc →
        (doc.config = none ∨ doc.members = none ∨ doc.sites = none) →
        handleFileImport d parsed confirmed = (d, true)) ∧
    ((handleFileImport d parsed confirmed).1 ≠ d →
        ∃ doc : ImportDoc, parsed = some doc ∧
          doc.config.isSome = true ∧ doc.members.isSome = true ∧ doc.sites.isSome = true) := by
  constructor
  · rintro ⟨c, m, s⟩ rfl hmiss
    rcases hmiss with h | h | h
    · rw [show c = none from h]
      rfl
    · rw [show m = none from h]
      rcases c with _ | c <;> rfl
    · rw [show s = none from h]
      rcases c with _ | c
      · rfl
      · rcases m with _ | m <;> rfl
  · intro hch
    rcases parsed with _ | ⟨c, m, s⟩
    · exact absurd rfl hch
    · rcases c with _ | c
      · exact absurd rfl hch
      · rcases m with _ | m
        · exact absurd rfl hch
        · rcases s with _ | s
          · exact absurd rfl hch
          · exact ⟨⟨some c, some m, some s⟩, rfl, rfl, rfl, rfl⟩

/-- Witness for C2: a document missing its sites key is rejected with an
error and appData stays as it was. -/
theorem c2_handleFileImport_keys_witness :
    handleFileImport appData0 (some importDocNoSites) true = (appData0, true) :=
  (c2_handleFileImport_keys appData0 (some importDocNoSites) true).1
    importDocNoSites rfl (Or.inr (Or.inr rfl))

-- ## C6: a site level without a configured value displays as 0

/-- C6: when a site points at a level with no entry in
config.levelValues, the value used for the row is the default 0 and the
value cell renders 0 with the configured currency label. -/
theorem c6_missing_level_value (cfg : Config) (s : Site) (h : siteLevelEntry cfg s = none) :
    siteLevelValue cfg s = 0 ∧ siteValueCell cfg s = "0 " ++ jsCurrency cfg := by
  have hv : siteLevelValue cfg s = 0 := by
    unfold siteLevelValue
    rw [h]
    rfl
  refine ⟨hv, ?_⟩
  unfold siteValueCell
  rw [hv]
  rw [show (((0 : Int) : Int) : ℚ) = 0 by norm_num, formatNumber_zero]
  rfl

/-- Witness for C6: config0 stores no level values, so the site at level
3 renders the cell 0 ISK. -/
theorem c6_missing_level_value_witness :
    siteLevelValue config0 siteEx2 = 0 ∧ siteValueCell config0 siteEx2 = "0 ISK" := by
  have h := c6_missing_level_value config0 siteEx2 rfl
  exact ⟨h.1, by rw [h.2]; rfl⟩

-- ## C4: payments are displayed sorted by total descending, on a copy

/-- C4: the rendered payment order is a permutation of
calculations.payments arranged with totals non-increasing, and the
payments array itself is left in its original order because the sort
runs on the spread copy. -/
theorem c4_payments_sorted_desc (c : Calculations) :
    (renderedPayments c).Perm c.payments ∧
    (renderedPayments c).Pairwise (fun a b => b.total ≤ a.total) ∧
    paymentsAfterDisplay c = c.payments := by
  refine ⟨?_, ?_, rfl⟩
  · unfold renderedPayments
    split
    · next hemp =>
      rw [List.isEmpty_iff.mp hemp]
    · exact List.mergeSort_perm c.payments paymentsDesc
  · unfold renderedPayments
    split
    · exact List.Pairwise.nil
    · have htrans : ∀ a b c : Payment,
          paymentsDesc a b = true → paymentsDesc b c = true → paymentsDesc a c = true := by
        intro a b c hab hbc
        exact decide_eq_true (le_trans (of_decide_eq_true hbc) (of_decide_eq_true hab))
      have htotal : ∀ a b : Payment, (paymentsDesc a b || paymentsDesc b a) = true := by
        intro a b
        rcases le_total b.total a.total with h | h
        · simp [paymentsDesc, h]
        · simp [paymentsDesc, h]
      have hsorted := @List.sorted_mergeSort Payment paymentsDesc htrans htotal c.payments
      exact hsorted.imp (fun hab => of_decide_eq_true hab)

-- ## C7: addMember appends one member per parsed name

theorem buildMembers_map_name_flag (flag : Bool) (idGen : Nat → String) :
    ∀ (names : List String) (i : Nat),
      (buildMembers flag idGen names i).map (fun m => (m.name, m.isSalvager)) =
        names.map (fun n => (n, flag)) := by
  intro names
  induction names with
  | nil => intro i; rfl
  | cons n rest ih => intro i; simp [buildMembers, ih]

theorem buildMembers_length (flag : Bool) (idGen : Nat → String) :
    ∀ (names : List String) (i : Nat),
      (buildMembers flag idGen names i).length = names.length := by
  intro names
  induction names with
  | nil => intro i; rfl
  | cons n rest ih => intro i; simp [buildMembers, ih]

/-- C7: addMember appends to appData.members exactly one member per
non-empty parsed name, in input order, each carrying the selected
salvager flag, keeping every existing member; with no non-empty name the
roster is unchanged (the appended block is empty).  Sites and config are
untouched. -/
theorem c7_addMember_appends (d : AppData) (raw : String) (flag : Bool) (idGen : Nat → String) :
    ((addMember d raw flag idGen).members.map (fun m => (m.name, m.isSalvager)) =
        d.members.map (fun m => (m.name, m.isSalvager)) ++ (parseNames raw).map (fun n => (n, flag))) ∧
    (addMember d raw flag idGen).members.length = d.members.length + (parseNames raw).length ∧
    (addMember d raw flag idGen).sites = d.sites ∧
    (addMember d raw flag idGen).config = d.config := by
  have hb := buildMembers_map_name_flag flag idGen (parseNames raw) 0
  have hl := buildMembers_length flag idGen (parseNames raw) 0
  unfold addMember
  cases hemp : (parseNames raw).isEmpty with
  | true =>
    have hnil : parseNames raw = [] := List.isEmpty_iff.mp hemp
    simp [hnil]
  | false =>
    simp [hemp, hb, hl]

-- ## C3: dangling participant ids render as the unknown label

/-- C3: rendering the participants of a site is total (never throws);
position i of the rendered name list is the label of participant i, a
participant id matching no roster member renders as Desconocido, and an
id with a matching roster member renders as the name of a matching
member. -/
theorem c3_dangling_participant (members : List Member) (s : Site) (i : Nat)
    (h : i < s.participants.length) :
    ((participantNamesList members s).get ⟨i, by simpa [participantNamesList] using h⟩ =
        participantLabel members (s.participants.get ⟨i, h⟩)) ∧
    ((∀ m ∈ members, m.id ≠ s.participants.get ⟨i, h⟩) →
        participantLabel members (s.participants.get ⟨i, h⟩) = "Desconocido") ∧
    ((∃ m ∈ members, m.id = s.participants.get ⟨i, h⟩) →
        ∃ m ∈ members, m.id = s.participants.get ⟨i, h⟩ ∧
          participantLabel members (s.participants.get ⟨i, h⟩) = m.name) := by
  refine ⟨?_, ?_, ?_⟩
  · simp [participantNamesList]
  · intro hnone
    have hfind : members.find? (fun m => m.id == s.participants.get ⟨i, h⟩) = none := by
      rw [List.find?_eq_none]
      intro m hm
      simpa using hnone m hm
    unfold participantLabel
    rw [hfind]
  · intro hex
    have hsome : (members.find? (fun m => m.id == s.participants.get ⟨i, h⟩)).isSome = true := by
      rw [List.find?_isSome]
      obtain ⟨m, hm, hid⟩ := hex
      exact ⟨m, hm, by simpa using hid⟩
    obtain ⟨m, hm⟩ := Option.isSome_iff_exists.mp hsome
    refine ⟨m, List.mem_of_find?_eq_some hm, by simpa using List.find?_some hm, ?_⟩
    unfold participantLabel
    rw [hm]

/-- Witness for C3: in siteEx the id zzz matches nobody and renders as
Desconocido while a1 still renders as Alice. -/
theorem c3_dangling_participant_witness :
    (participantNamesList membersEx siteEx).get ⟨1, by decide⟩ = "Desconocido" ∧
    (participantNamesList membersEx siteEx).get ⟨0, by decide⟩ = "Alice" := by
  constructor
  · have hthm := c3_dangling_participant membersEx siteEx 1 (by decide)
    rw [hthm.1]
    exact hthm.2.1 (by decide)
  · have hthm := c3_dangling_participant membersEx siteEx 0 (by decide)
    rw [hthm.1]
    obtain ⟨m, hm, hid, hlab⟩ := hthm.2.2 ⟨⟨"a1", "Alice", false⟩, by decide, by decide⟩
    have hmem : m = ⟨"a1", "Alice", false⟩ := by
      simpa [membersEx] using hm
    rw [hlab, hmem]

-- ## C8: parseFormattedNumber inverts formatNumber

theorem digitCharVal_digitChar (m : Nat) (h : m < 10) : digitCharVal (Nat.digitChar m) = m := by
  interval_cases m <;> decide

theorem digitChar_isDigit_lt (m : Nat) (h : m < 10) : (Nat.digitChar m).isDigit = true := by
  interval_cases m <;> decide

theorem digitsToNat_append_one (r : Nat) (ds : List Char) (c : Char) :
    digitsToNat r (ds ++ [c]) = r * digitsToNat r ds + digitCharVal c := by
  unfold digitsToNat
  rw [List.foldl_append]
  rfl

theorem toDigitsAux_mem_isDigit :
    ∀ (fuel n : Nat), ∀ c ∈ toDigitsAux fuel n, c.isDigit = true := by
  intro fuel
  induction fuel with
  | zero => intro n c hc; simp [toDigitsAux] at hc
  | succ f ih =>
    intro n c hc
    unfold toDigitsAux at hc
    split at hc
    · simp at hc
    · rw [List.mem_append] at hc
      rcases hc with hc | hc
      · exact ih _ c hc
      · rw [List.mem_singleton] at hc
        subst hc
        exact digitChar_isDigit_lt _ (Nat.mod_lt _ (by norm_num))

theorem digitsToNat_toDigitsAux :
    ∀ (fuel n : Nat), n ≤ fuel → digitsToNat 10 (toDigitsAux fuel n) = n := by
  intro fuel
  induction fuel with
  | zero =>
    intro n h
    have h0 : n = 0 := Nat.le_zero.mp h
    subst h0
    rfl
  | succ f ih =>
    intro n h
    unfold toDigitsAux
    split
    · next h0 => rw [h0]; rfl
    · next h0 =>
      have hdiv : n / 10 ≤ f := by
        have hlt : n / 10 < n := Nat.div_lt_self (Nat.pos_of_ne_zero h0) (by norm_num)
        omega
      rw [digitsToNat_append_one, ih (n / 10) hdiv,
        digitCharVal_digitChar _ (Nat.mod_lt _ (by norm_num))]
      exact Nat.div_add_mod n 10

theorem digitsToNat_natDigits (n : Nat) : digitsToNat 10 (natDigits n) = n := by
  unfold natDigits
  split
  · next h0 => rw [h0]; decide
  · exact digitsToNat_toDigitsAux n n le_rfl

theorem natDigits_mem_isDigit (n : Nat) : ∀ c ∈ natDigits n, c.isDigit = true := by
  unfold natDigits
  split
  · intro c hc
    rw [List.mem_singleton] at hc
    subst hc
    decide
  · exact toDigitsAux_mem_isDigit n n

theorem natDigits_ne_nil (n : Nat) : natDigits n ≠ [] := by
  unfold natDigits
  split
  · simp
  · next h0 =>
    obtain ⟨m, rfl⟩ := Nat.exists_eq_succ_of_ne_zero h0
    simp [toDigitsAux]

theorem groupThousands_filter_digits (sep : Char) (hsep : sep.isDigit = false) :
    ∀ l : List Char, (∀ c ∈ l, c.isDigit = true) →
      (groupThousands sep l).filter Char.isDigit = l
  | [], h => List.filter_eq_self.mpr h
  | [a], h => List.filter_eq_self.mpr h
  | [a, b], h => List.filter_eq_self.mpr h
  | [a, b, c], h => List.filter_eq_self.mpr h
  | a :: b :: c :: d :: rest, h => by
    have ih := groupThousands_filter_digits sep hsep (d :: rest)
      (fun x hx => h x (by simp only [List.mem_cons] at hx ⊢; tauto))
    simp [groupThousands, List.filter_cons, h a (by simp), h b (by simp),
      h c (by simp), hsep, ih]

theorem sepFor_not_digit (fmt : String) : (sepFor fmt).isDigit = false := by
  unfold sepFor
  split_ifs <;> decide

theorem parseFormattedNumber_formatInt (n : Nat) (fmt : String) :
    parseFormattedNumber (formatInt ((n : Nat) : Int) fmt) = ((n : Nat) : Int) := by
  have hsep := sepFor_not_digit fmt
  have hgrp := groupThousands_filter_digits (sepFor fmt) hsep (natDigits n).reverse
    (fun c hc => natDigits_mem_isDigit n c (List.mem_reverse.mp hc))
  have habs : ((n : Int)).natAbs = n := Int.natAbs_ofNat n
  have hneg : ¬ ((n : Int) < 0) := not_lt.mpr (Int.natCast_nonneg n)
  have hfilter :
      ((groupThousands (sepFor fmt) (natDigits n).reverse).reverse).filter Char.isDigit
        = natDigits n := by
    rw [List.filter_reverse, hgrp, List.reverse_reverse]
  have hne : (groupThousands (sepFor fmt) (natDigits n).reverse).reverse ≠ [] := by
    intro h0
    apply natDigits_ne_nil n
    rw [← hfilter, h0]
    rfl
  unfold formatInt
  rw [if_neg hneg, habs, List.nil_append]
  unfold parseFormattedNumber
  rw [if_neg (fun h0 => hne (by simpa using congrArg String.data h0))]
  have hdata :
      (String.mk ((groupThousands (sepFor fmt) (natDigits n).reverse).reverse)).data
        = (groupThousands (sepFor fmt) (natDigits n).reverse).reverse := rfl
  simp only [hdata, hfilter]
  rw [if_neg (fun hh => natDigits_ne_nil n (List.isEmpty_iff.mp hh))]
  rw [digitsToNat_natDigits]

/-- C8: for a non-negative integer in the exactly-representable range of
a JS number, parseFormattedNumber recovers the input of formatNumber for
each of the three supported formats (comma, space, dot). -/
theorem c8_format_parse_roundtrip (n : Nat) (h : n ≤ 9007199254740992) :
    parseFormattedNumber (formatNumber ((n : Nat) : ℚ) "comma") = ((n : Nat) : Int) ∧
    parseFormattedNumber (formatNumber ((n : Nat) : ℚ) "space") = ((n : Nat) : Int) ∧
    parseFormattedNumber (formatNumber ((n : Nat) : ℚ) "dot") = ((n : Nat) : Int) := by
  have hr : jsRound ((n : Nat) : ℚ) = ((n : Nat) : Int) := by
    have hz := jsRound_intCast ((n : Nat) : Int)
    simpa using hz
  unfold formatNumber
  rw [hr]
  exact ⟨parseFormattedNumber_formatInt n "comma", parseFormattedNumber_formatInt n "space",
    parseFormattedNumber_formatInt n "dot"⟩

/-- Witness for C8 at 1234567. -/
theorem c8_format_parse_roundtrip_witness :
    (1234567 : Nat) ≤ 9007199254740992 ∧
    parseFormattedNumber (formatNumber ((1234567 : Nat) : ℚ) "comma") = ((1234567 : Nat) : Int) :=
  ⟨by norm_num, (c8_format_parse_roundtrip 1234567 (by norm_num)).1⟩

-- ## C1: addSite validation and the NaN level hole

/-- C1 counterexample: a level input that parseInt cannot read (NaN)
passes the level < 1 and level > 10 comparisons, so addSite stores a
site violating the level-in-[1,10] invariant instead of rejecting the
submission. -/
theorem c1_claim_counterexample :
    (addSite appData0 "Sitio A" "x" ["m1"] 0).sites ≠ appData0.sites ∧
    (addSite appData0 "Sitio A" "x" ["m1"] 0).sites.all siteInvariant = false := by
  decide

/-- C1 amended: provided the level input parses to an actual number,
every site addSite stores satisfies the invariant (integer level in
[1,10], non-empty participants), and addSite rejects an empty trimmed
name, a parsed level outside 1..10, and an empty participant selection. -/
theorem c1_addSite_validation (d : AppData) (siteName levelRaw : String)
    (checkedIds : List String) (now : Int)
    (h : (jsParseInt levelRaw).isSome = true) :
    (∀ s ∈ (addSite d siteName levelRaw checkedIds now).sites,
        s ∈ d.sites ∨ siteInvariant s = true) ∧
    (jsTrim siteName = "" → addSite d siteName levelRaw checkedIds now = d) ∧
    (∀ l : Int, jsParseInt levelRaw = some l → (l < 1 ∨ 10 < l) →
        addSite d siteName levelRaw checkedIds now = d) ∧
    (checkedIds = [] → addSite d siteName levelRaw checkedIds now = d) := by
  obtain ⟨l, hl⟩ := Option.isSome_iff_exists.mp h
  refine ⟨?_, ?_, ?_, ?_⟩
  · intro s hs
    simp only [addSite] at hs
    split at hs
    · exact Or.inl hs
    · split at hs
      · exact Or.inl hs
      · next hcond =>
        split at hs
        · exact Or.inl hs
        · next hemp =>
          rw [List.mem_append, List.mem_singleton] at hs
          rcases hs with hs | hs
          · exact Or.inl hs
          · refine Or.inr ?_
            subst hs
            rw [hl] at hcond
            simp only [jsLtNum, jsGtNum, Bool.or_eq_true, decide_eq_true_eq, not_or] at hcond
            simp only [siteInvariant, levelOk, hl, Bool.and_eq_true, decide_eq_true_eq,
              Bool.not_eq_true]
            refine ⟨⟨by omega, by omega⟩, ?_⟩
            simpa using hemp
  · intro h0
    simp [addSite, h0]
  · intro l0 hl0 hrange
    have hcond : (jsLtNum (jsParseInt levelRaw) 1 || jsGtNum (jsParseInt levelRaw) 10) = true := by
      rw [hl0]
      rcases hrange with hr | hr
      · simp [jsLtNum, hr]
      · simp [jsLtNum, jsGtNum, hr]
    simp [addSite, hcond]
  · intro h0
    subst h0
    simp [addSite]

/-- Witness for C1: a submission whose level input parses (to 3)
satisfies the hypothesis, and every site it stores meets the invariant. -/
theorem c1_addSite_validation_witness :
    (jsParseInt "3").isSome = true ∧
    ∀ s ∈ (addSite appData0 "A" "3" ["m1"] 0).sites,
      s ∈ appData0.sites ∨ siteInvariant s = true :=
  ⟨by decide, (c1_addSite_validation appData0 "A" "3" ["m1"] 0 (by decide)).1⟩

-- ## C5: saveConfig level validation and the partial-update hole

/-- Unfolding of one saveLoop iteration with the guard as a proposition. -/
theorem saveLoop_succ (raw nm : Nat → String) (f i : Nat) (cfg : Config) :
    saveLoop raw nm (f + 1) i cfg =
      if parseFormattedNumber (raw i) < 0 ∨ levelMaxValue < parseFormattedNumber (raw i)
      then (cfg, some i)
      else saveLoop raw nm f (i + 1)
        (writeLevel cfg i (parseFormattedNumber (raw i)) (levelNameInput (nm i) i)) := by
  by_cases hg : parseFormattedNumber (raw i) < 0 ∨ levelMaxValue < parseFormattedNumber (raw i)
  · rw [if_pos hg]
    simp only [saveLoop]
    rw [if_pos (by simpa using hg)]
  · rw [if_neg hg]
    simp only [saveLoop]
    rw [if_neg (by simpa using hg)]

/-- Every binding saveLoop leaves in levelValues is either inherited
from the starting configuration or a parsed in-range input value. -/
theorem saveLoop_levelValues_provenance (raw nm : Nat → String) :
    ∀ (fuel i : Nat) (cfg : Config) (l v : Int),
      (saveLoop raw nm fuel i cfg).1.levelValues l = some v →
      cfg.levelValues l = some v ∨
        ∃ j : Nat, i ≤ j ∧ j < i + fuel ∧ l = (j : Int) ∧
          v = parseFormattedNumber (raw j) ∧
          ¬(parseFormattedNumber (raw j) < 0 ∨ levelMaxValue < parseFormattedNumber (raw j)) := by
  intro fuel
  induction fuel with
  | zero => intro i cfg l v hv; exact Or.inl hv
  | succ f ih =>
    intro i cfg l v hv
    rw [saveLoop_succ] at hv
    by_cases hg : parseFormattedNumber (raw i) < 0 ∨ levelMaxValue < parseFormattedNumber (raw i)
    · rw [if_pos hg] at hv
      exact Or.inl hv
    · rw [if_neg hg] at hv
      rcases ih (i + 1) _ l v hv with hch | ⟨j, hj1, hj2, hj3, hj4, hj5⟩
      · by_cases hli : l = (i : Int)
        · refine Or.inr ⟨i, le_rfl, by omega, hli, ?_, hg⟩
          have hch2 : (if l = (i : Int) then some (parseFormattedNumber (raw i))
              else cfg.levelValues l) = some v := hch
          rw [if_pos hli] at hch2
          exact (Option.some_inj.mp hch2).symm
        · have hch2 : (if l = (i : Int) then some (parseFormattedNumber (raw i))
              else cfg.levelValues l) = some v := hch
          rw [if_neg hli] at hch2
          exact Or.inl hch2
      · exact Or.inr ⟨j, by omega, by omega, hj3, hj4, hj5⟩

/-- When saveLoop aborts with an error at index i0, the failing input is
out of range, every level at or beyond i0 (and before the start) is
untouched, and every level processed before i0 has been overwritten with
its parsed input value. -/
theorem saveLoop_error_spec (raw nm : Nat → String) :
    ∀ (fuel i : Nat) (cfg : Config) (i0 : Nat),
      (saveLoop raw nm fuel i cfg).2 = some i0 →
      i ≤ i0 ∧ i0 < i + fuel ∧
      (parseFormattedNumber (raw i0) < 0 ∨ levelMaxValue < parseFormattedNumber (raw i0)) ∧
      (∀ l : Int, (l < (i : Int) ∨ (i0 : Int) ≤ l) →
          (saveLoop raw nm fuel i cfg).1.levelValues l = cfg.levelValues l) ∧
      (∀ j : Nat, i ≤ j → j < i0 →
          (saveLoop raw nm fuel i cfg).1.levelValues (j : Int)
            = some (parseFormattedNumber (raw j))) := by
  intro fuel
  induction fuel with
  | zero =>
    intro i cfg i0 hv
    exact absurd hv (by simp [saveLoop])
  | succ f ih =>
    intro i cfg i0 hv
    by_cases hg : parseFormattedNumber (raw i) < 0 ∨ levelMaxValue < parseFormattedNumber (raw i)
    · rw [saveLoop_succ, if_pos hg] at hv
      have hi0 : i0 = i := (Option.some_inj.mp hv).symm
      subst hi0
      refine ⟨le_rfl, by omega, hg, ?_, ?_⟩
      · intro l hl
        rw [saveLoop_succ, if_pos hg]
      · intro j hj1 hj2
        exact absurd hj2 (by omega)
    · rw [saveLoop_succ, if_neg hg] at hv
      obtain ⟨h1, h2, h3, h4, h5⟩ := ih (i + 1)
        (writeLevel cfg i (parseFormattedNumber (raw i)) (levelNameInput (nm i) i)) i0 hv
      refine ⟨by omega, by omega, h3, ?_, ?_⟩
      · intro l hl
        rw [saveLoop_succ, if_neg hg]
        have hli : l ≠ (i : Int) := by
          rcases hl with hl | hl <;> omega
        have hcond : l < ((i + 1 : Nat) : Int) ∨ (i0 : Int) ≤ l := by
          rcases hl with hl | hl
          · exact Or.inl (by push_cast; omega)
          · exact Or.inr hl
        rw [h4 l hcond]
        show (if l = (i : Int) then some (parseFormattedNumber (raw i))
            else cfg.levelValues l) = cfg.levelValues l
        rw [if_neg hli]
      · intro j hj1 hj2
        rw [saveLoop_succ, if_neg hg]
        by_cases hji : j = i
        · subst hji
          have hcond : ((j : Nat) : Int) < ((j + 1 : Nat) : Int) ∨ (i0 : Int) ≤ ((j : Nat) : Int) := by
            exact Or.inl (by push_cast; omega)
          rw [h4 (j : Int) hcond]
          show (if ((j : Nat) : Int) = ((j : Nat) : Int) then some (parseFormattedNumber (raw j))
              else cfg.levelValues (j : Int)) = some (parseFormattedNumber (raw j))
          rw [if_pos rfl]
        · exact h5 j (by omega) hj2

/-- C5 counterexample: with a 13-digit value for level 2 and a valid
value for level 1, saveConfig shows the error, yet level 1 has already
been written into appData.config.levelValues, so the configuration was
partially updated for that call. -/
theorem c5_claim_counterexample :
    (saveConfig appData0 rawBad nmX false 10 "ISK" true).2.1 = true ∧
    (saveConfig appData0 rawBad nmX false 10 "ISK" true).1.config.levelValues 1 = some 5 ∧
    appData0.config.levelValues 1 = none := by
  decide

/-- C5 amended: every value saveConfig stores into levelValues is a
parsed in-range input (non-negative and at most 999999999999); on an
out-of-range input saveConfig shows the error, does not invoke saveData,
leaves the first failing level and all later levels unchanged, but the
levels preceding the first failure have already been overwritten with
their parsed values; with all inputs in range it saves. -/
theorem c5_saveConfig_amended (d : AppData) (raw nm : Nat → String) (hasS : Bool) (pct : ℚ)
    (curr : String) (auto : Bool) :
    (∀ l v : Int,
        (saveConfig d raw nm hasS pct curr auto).1.config.levelValues l = some v →
        d.config.levelValues l = some v ∨ (0 ≤ v ∧ v ≤ levelMaxValue)) ∧
    ((saveConfig d raw nm hasS pct curr auto).2.1 = true →
        (saveConfig d raw nm hasS pct curr auto).2.2 = false ∧
        ∃ i0 : Nat, 1 ≤ i0 ∧ i0 ≤ 10 ∧
          (parseFormattedNumber (raw i0) < 0 ∨ levelMaxValue < parseFormattedNumber (raw i0)) ∧
          (∀ l : Int, (l < 1 ∨ (i0 : Int) ≤ l) →
              (saveConfig d raw nm hasS pct curr auto).1.config.levelValues l
                = d.config.levelValues l) ∧
          (∀ j : Nat, 1 ≤ j → j < i0 →
              (saveConfig d raw nm hasS pct curr auto).1.config.levelValues (j : Int)
                = some (parseFormattedNumber (raw j)))) ∧
    ((saveConfig d raw nm hasS pct curr auto).2.1 = false →
        (saveConfig d raw nm hasS pct curr auto).2.2 = true) := by
  unfold saveConfig
  rcases hsl : saveLoop raw nm 10 1 d.config with ⟨cfg, err⟩
  have hmax : levelMaxValue = 999999999999 := rfl
  have hprov : ∀ l v : Int, cfg.levelValues l = some v →
      d.config.levelValues l = some v ∨ (0 ≤ v ∧ v ≤ levelMaxValue) := by
    intro l v hv
    rcases saveLoop_levelValues_provenance raw nm 10 1 d.config l v
        (by rw [hsl]; exact hv) with hold | ⟨j, hj1, hj2, hj3, hj4, hj5⟩
    · exact Or.inl hold
    · obtain ⟨h5a, h5b⟩ := not_or.mp hj5
      exact Or.inr ⟨by omega, by omega⟩
  rcases err with _ | i0
  · refine ⟨?_, ?_, ?_⟩
    · intro l v hv
      exact hprov l v hv
    · intro habs
      exact absurd habs (by simp)
    · intro _
      rfl
  · obtain ⟨h1, h2, h3, h4, h5⟩ := saveLoop_error_spec raw nm 10 1 d.config i0 (by rw [hsl])
    rw [hsl] at h4 h5
    refine ⟨?_, ?_, ?_⟩
    · intro l v hv
      exact hprov l v hv
    · intro _
      refine ⟨rfl, i0, h1, by omega, h3, ?_, h5⟩
      intro l hl
      refine h4 l ?_
      rcases hl with hl | hl
      · exact Or.inl (by push_cast; omega)
      · exact Or.inr hl
    · intro habs
      exact absurd habs (by simp)

/-- Witness for C5: saveConfig on the rawBad inputs reports the error,
skips saveData, keeps level 2 unchanged, and has already stored 5 for
level 1. -/
theorem c5_saveConfig_amended_witness :
    (saveConfig appData0 rawBad nmX false 10 "ISK" true).2.1 = true ∧
    (saveConfig appData0 rawBad nmX false 10 "ISK" true).2.2 = false ∧
    (saveConfig appData0 rawBad nmX false 10 "ISK" true).1.config.levelValues 2
      = appData0.config.levelValues 2 := by
  exact ⟨by decide, ((c5_saveConfig_amended appData0 rawBad nmX false 10 "ISK" true).2.1
    (by decide)).1, by decide⟩

-- ## Additional concrete witnesses for the universally quantified claims

/-- Witness for C4 at a concrete calculations value. -/
theorem c4_payments_sorted_desc_witness :
    (renderedPayments calcTwo).Perm calcTwo.payments ∧
    paymentsAfterDisplay calcTwo = calcTwo.payments :=
  ⟨(c4_payments_sorted_desc calcTwo).1, (c4_payments_sorted_desc calcTwo).2.2⟩

/-- Witness for C7: a two-name comma input appends both names with the
salvager flag. -/
theorem c7_addMember_appends_witness :
    (addMember appData0 "ana, bob" true idEx).members.map (fun m => (m.name, m.isSalvager))
      = [("ana", true), ("bob", true)] := by
  rw [(c7_addMember_appends appData0 "ana, bob" true idEx).1]
  decide

/-- Witness for C10: removing b2 keeps Alice, drops Bob, and leaves the
site with the now dangling participant id b2. -/
theorem c10_removeMember_frame_witness :
    ({ id := "a1", name := "Alice", isSalvager := false } : Member)
        ∈ (removeMember dataEx "b2" true).members ∧
    ({ id := "b2", name := "Bob", isSalvager := true } : Member)
        ∉ (removeMember dataEx "b2" true).members ∧
    (removeMember dataEx "b2" true).sites = dataEx.sites := by
  have hthm := c10_removeMember_frame dataEx "b2"
  refine ⟨(hthm.1 _).mpr ⟨by decide, by decide⟩, ?_, hthm.2.1⟩
  intro hmem
  exact ((hthm.1 _).mp hmem).2 rfl

end EveSplit
